import Mathlib

/-!
Verification of the request-normalization and result-projection layer of the
EJDB node binding (src/ejdb.js). The file shallowly embeds the JavaScript
glue code: JS runtime values become an inductive type, each method body
becomes a pure function from the raw positional arguments (plus the
arity actually supplied by the caller, mirroring arguments.length) to
either a thrown error or a dispatched engine request, and each engine
callback wrapper becomes a function from the engine outcome to a trace of
observable events (terminal-handler invocations and cursor closes).
-/

set_option autoImplicit false

namespace EJDB

/-- Model of JavaScript runtime values as they occur in src/ejdb.js:
undefined, null, booleans, numbers, strings, arrays, plain objects
(association lists of own properties) and functions (tagged opaquely). -/
inductive JSVal where
  | vundef
  | vnull
  | vbool (b : Bool)
  | vnum  (n : Int)
  | vstr  (s : String)
  | varr  (elems : List JSVal)
  | vobj  (fields : List (String × JSVal))
  | vfun  (id : Nat)

open JSVal

/-- v.constructor === Array in the source (line 275): true exactly for
arrays; accessing .constructor on a truthy primitive yields its boxed
constructor, never Array. -/
def isArray : JSVal → Bool
  | varr _ => true
  | _ => false

/-- typeof v === "function". -/
def isFunction : JSVal → Bool
  | vfun _ => true
  | _ => false

/-- typeof v === "string". -/
def isString : JSVal → Bool
  | vstr _ => true
  | _ => false

/-- typeof v === "object"; note that in JavaScript typeof null is
"object", arrays are objects, and functions are "function". -/
def typeofIsObject : JSVal → Bool
  | vnull => true
  | varr _ => true
  | vobj _ => true
  | _ => false

/-- JavaScript truthiness. -/
def truthy : JSVal → Bool
  | vundef => false
  | vnull => false
  | vbool b => b
  | vnum n => n != 0
  | vstr s => s != ""
  | varr _ => true
  | vobj _ => true
  | vfun _ => true

/-- v != null (loose): false exactly for null and undefined (line 139). -/
def jsNonNullish : JSVal → Bool
  | vnull => false
  | vundef => false
  | _ => true

/-- First-match lookup in an object property list; undefined if absent. -/
def getAssoc : List (String × JSVal) → String → JSVal
  | [], _ => vundef
  | (k, v) :: rest, key => if k = key then v else getAssoc rest key

/-- Replace the value of the first entry with the given key, or append. -/
def setAssoc : List (String × JSVal) → String → JSVal → List (String × JSVal)
  | [], key, v => [(key, v)]
  | (k, w) :: rest, key, v =>
    if k = key then (k, v) :: rest else (k, w) :: setAssoc rest key v

/-- Property read v[key]: own-property lookup on objects, undefined on
everything else (no properties of these primitives are read by ejdb.js). -/
def getProp : JSVal → String → JSVal
  | vobj fields, key => getAssoc fields key
  | _, _ => vundef

/-- Property write v[key] = x: updates objects; on primitives a sloppy-mode
property assignment is a silent no-op, which is what the fallback models. -/
def setProp (v : JSVal) (key : String) (x : JSVal) : JSVal :=
  match v with
  | vobj fields => vobj (setAssoc fields key x)
  | w => w

/-- Strict equality a === b as used in line 139 of the source, where one
operand is an engine-produced OID. Primitives compare by value; values of
reference type (objects, arrays, functions) compare by reference and are
never reference-equal to a value freshly produced by the native engine,
so those comparisons are modelled as false. -/
def strictEq : JSVal → JSVal → Bool
  | vundef, vundef => true
  | vnull, vnull => true
  | vbool a, vbool b => a == b
  | vnum a, vnum b => a == b
  | vstr a, vstr b => a == b
  | _, _ => false

/-- The triple of locals (orarr, hints, cb) after the arity dispatch that
opens find (lines 273-285), findOne (322-334), update (390-402) and count
(444-456); the four copies in the source are textually identical.
Positional slots a caller did not supply hold vundef. -/
structure NormArgs where
  orarr : JSVal
  hints : JSVal
  cb    : JSVal

/-- Arity dispatch of find/findOne/update/count: with 4 arguments the 4th
is the callback and the 3rd is routed by runtime type (array means
orPredicates, anything else means hints); with 3 arguments the 3rd is the
callback and both optional slots default to empty; any other arity leaves
the parameters in place. -/
def normArgs : Nat → JSVal → JSVal → JSVal → NormArgs
  | 4, orarr, hints, _ =>
    let cb := hints
    if truthy orarr && isArray orarr then
      ⟨orarr, vobj [], cb⟩
    else
      ⟨varr [], orarr, cb⟩
  | 3, orarr, _, _ => ⟨varr [], vobj [], orarr⟩
  | _, orarr, hints, cb => ⟨orarr, hints, cb⟩

/-- if (!hints or typeof hints !== "object") hints = \x7b\x7d (line 292). -/
def coerceHints (h : JSVal) : JSVal :=
  if !truthy h || !typeofIsObject h then vobj [] else h

/-- if (!qobj or typeof qobj !== "object") qobj = \x7b\x7d (line 295). -/
def coerceQobj (q : JSVal) : JSVal :=
  if !truthy q || !typeofIsObject q then vobj [] else q

/-- One step of Array.prototype.concat: an array argument is spread, any
other argument is appended as a single element. -/
def concatArg (base : List JSVal) (x : JSVal) : List JSVal :=
  match x with
  | varr es => base ++ es
  | v => base ++ [v]

/-- The request array [qobj].concat(orarr, hints) sent to the engine
(line 299). -/
def queryArray (qobj orarr hints : JSVal) : List JSVal :=
  concatArg (concatArg [qobj] orarr) hints

/-- The JBQRYCOUNT flag re-exported from the native library; only its
identity (nonzero, distinct from the default mode 0) matters to this
layer, which forwards it verbatim. -/
def JBQRYCOUNT : Nat := 1

/-- A normalized request as handed to the engine query call: collection
name, request array, mode flag and the callback value captured by the
wrapper (vnull when update nulled out a missing handler). -/
structure QueryDispatch where
  cname : JSVal
  args  : List JSVal
  mode  : Nat
  cb    : JSVal

/-- Body of EJDB.prototype.find (lines 272-302): arity dispatch, the two
synchronous argument checks, the hints and qobj coercions, and the final
engine dispatch with mode JBQRYCOUNT exactly when hints.$onlycount is
truthy. An error value models a synchronously thrown Error. -/
def findBody (arity : Nat) (cname qobj orarr hints cb : JSVal) :
    Except String QueryDispatch :=
  let a := normArgs arity orarr hints cb
  if !isFunction a.cb then
    Except.error "Callback cb argument must be specified"
  else if !isString cname then
    Except.error "Collection name cname argument must be specified"
  else
    let h := coerceHints a.hints
    let q := coerceQobj qobj
    Except.ok ⟨cname, queryArray q a.orarr h,
      if truthy (getProp h "$onlycount") then JBQRYCOUNT else 0, a.cb⟩

/-- C1: the three accepted call arities of find that express the same
logical request produce identical normalized engine dispatches (same
request array and same mode flag); in the 4-argument form the third
argument is routed to orPredicates exactly when it is an array, the other
slot defaulting to empty. -/
theorem c1_find_arity_normalization (cname qobj x cb : JSVal) :
    (isArray x = true →
      findBody 4 cname qobj x cb JSVal.vundef
        = findBody 5 cname qobj x (JSVal.vobj []) cb)
    ∧ (isArray x = false →
      findBody 4 cname qobj x cb JSVal.vundef
        = findBody 5 cname qobj (JSVal.varr []) x cb)
    ∧ findBody 3 cname qobj cb JSVal.vundef JSVal.vundef
        = findBody 5 cname qobj (JSVal.varr []) (JSVal.vobj []) cb := by
  refine ⟨?_, ?_, rfl⟩
  · intro hx
    cases x <;> simp_all [isArray, findBody, normArgs, truthy]
  · intro hx
    cases x <;> simp_all [isArray, findBody, normArgs, truthy]

/-- Closed instance of C1: both conditional parts applied at concrete
inputs, with each hypothesis discharged there. -/
theorem c1_find_arity_normalization_witness :
    findBody 4 (JSVal.vstr "c") (JSVal.vobj []) (JSVal.varr [JSVal.vobj []])
        (JSVal.vfun 0) JSVal.vundef
      = findBody 5 (JSVal.vstr "c") (JSVal.vobj []) (JSVal.varr [JSVal.vobj []])
        (JSVal.vobj []) (JSVal.vfun 0)
    ∧ findBody 4 (JSVal.vstr "c") (JSVal.vobj [])
        (JSVal.vobj [("$max", JSVal.vnum 5)]) (JSVal.vfun 0) JSVal.vundef
      = findBody 5 (JSVal.vstr "c") (JSVal.vobj []) (JSVal.varr [])
        (JSVal.vobj [("$max", JSVal.vnum 5)]) (JSVal.vfun 0) :=
  ⟨(c1_find_arity_normalization _ _ _ _).1 rfl,
   (c1_find_arity_normalization _ _ _ _).2.1 rfl⟩

/-- Body of EJDB.prototype.findOne (lines 321-348) up to the dispatch: same
arity dispatch and checks as find, then the in-place write
hints[$max] = 1 on the coerced hints object, then dispatch with mode 0. -/
def findOneBody (arity : Nat) (cname qobj orarr hints cb : JSVal) :
    Except String QueryDispatch :=
  let a := normArgs arity orarr hints cb
  if !isFunction a.cb then
    Except.error "Callback cb argument must be specified"
  else if !isString cname then
    Except.error "Collection name cname argument must be specified"
  else
    let h := setProp (coerceHints a.hints) "$max" (vnum 1)
    let q := coerceQobj qobj
    Except.ok ⟨cname, queryArray q a.orarr h, 0, a.cb⟩

/-- Value of the binding the caller passed as hints, observed after
findOne returns. In the source, hints[$max] = 1 (line 347) mutates the
object in place; whenever the caller-supplied hints survived the coercion
check it is the very object the caller still holds, so the caller
observes the write. On the synchronous throw paths no write happens. -/
def findOneCallerHintsAfter (arity : Nat) (cname orarr hints cb : JSVal) :
    JSVal :=
  let a := normArgs arity orarr hints cb
  if !isFunction a.cb then a.hints
  else if !isString cname then a.hints
  else if truthy a.hints && typeofIsObject a.hints then
    setProp a.hints "$max" (vnum 1)
  else a.hints

/-- Body of EJDB.prototype.update (lines 389-417) up to the dispatch: same
arity dispatch, but a missing callable handler is replaced by null
(line 404) instead of throwing; the cname check still throws; the mode
flag is JBQRYCOUNT unconditionally. -/
def updateBody (arity : Nat) (cname qobj orarr hints cb : JSVal) :
    Except String QueryDispatch :=
  let a := normArgs arity orarr hints cb
  let cbv := if isFunction a.cb then a.cb else vnull
  if !isString cname then
    Except.error "Collection name cname argument must be specified"
  else
    Except.ok ⟨cname, queryArray (coerceQobj qobj) a.orarr (coerceHints a.hints),
      JBQRYCOUNT, cbv⟩

/-- Body of EJDB.prototype.count (lines 443-471) up to the dispatch: same
arity dispatch and checks as find; the mode flag is JBQRYCOUNT
unconditionally. -/
def countBody (arity : Nat) (cname qobj orarr hints cb : JSVal) :
    Except String QueryDispatch :=
  let a := normArgs arity orarr hints cb
  if !isFunction a.cb then
    Except.error "Callback cb argument must be specified"
  else if !isString cname then
    Except.error "Collection name cname argument must be specified"
  else
    Except.ok ⟨cname, queryArray (coerceQobj qobj) a.orarr (coerceHints a.hints),
      JBQRYCOUNT, a.cb⟩

/-- Observable events produced by an engine-callback wrapper: an
invocation of the terminal handler with the given argument list, or a
cursor close. -/
inductive Event where
  | cbCall (args : List JSVal)
  | cursorClose

/-- Outcome with which the engine invokes the callback of a query
dispatch: per the engine contract, on failure the error slot is set and
no cursor is produced; on success the cursor (modelled by its list of
records, in engine order), the count and the diagnostic log are given. -/
inductive QryOutcome where
  | failure (err : JSVal) (log : JSVal)
  | success (records : List JSVal) (count : Nat) (log : JSVal)

/-- True exactly on handler-invocation events. -/
def isCbCall : Event → Bool
  | Event.cbCall _ => true
  | Event.cursorClose => false

/-- True exactly on cursor-close events. -/
def isClose : Event → Bool
  | Event.cursorClose => true
  | Event.cbCall _ => false

/-- Number of terminal-handler invocations in a trace. -/
def cbCallCount (es : List Event) : Nat := es.countP isCbCall

/-- Number of cursor closes in a trace. -/
def closeCount (es : List Event) : Nat := es.countP isClose

/-- Engine-callback wrapper of findOne (lines 349-363). On failure the
handler gets the error. On success the wrapper advances the cursor once:
if a record exists it invokes the handler with (null, first record)
inside a try block whose finally clause closes the cursor, so the close
happens even when the handler throws; with no record it invokes the
handler with (null, null) and performs no close. The Bool parameter says
whether the terminal handler throws when invoked; the Bool result says
whether an exception escapes the wrapper (nothing catches it). -/
def findOneCb (out : QryOutcome) (cbThrows : Bool) : List Event × Bool :=
  match out with
  | QryOutcome.failure err _ => ([Event.cbCall [err]], cbThrows)
  | QryOutcome.success records _ _ =>
    match records with
    | r :: _ => ([Event.cbCall [vnull, r], Event.cursorClose], cbThrows)
    | [] => ([Event.cbCall [vnull, vnull]], cbThrows)

/-- Engine-callback wrapper of count (lines 472-479): on failure the
handler gets the error alone; on success the cursor is closed first and
then the handler gets (null, count). -/
def countCb (out : QryOutcome) : List Event :=
  match out with
  | QryOutcome.failure err _ => [Event.cbCall [err]]
  | QryOutcome.success _ count _ =>
    [Event.cursorClose, Event.cbCall [vnull, vnum count]]

/-- Engine-callback wrapper of update (lines 418-424): both branches
invoke cb unconditionally, passing the diagnostic log; when update nulled
out a missing handler the call cb(...) raises a TypeError, modelled by
the error result. The Bool parameter is isFunction of the captured cb. -/
def updateCb (cbIsFun : Bool) (out : QryOutcome) : Except String (List Event) :=
  match out with
  | QryOutcome.failure err log =>
    if cbIsFun then Except.ok [Event.cbCall [err, vnull, log]]
    else Except.error "TypeError: cb is not a function"
  | QryOutcome.success _ count log =>
    if cbIsFun then Except.ok [Event.cbCall [vnull, vnum count, log]]
    else Except.error "TypeError: cb is not a function"

/-- C3: when the findOne query succeeds with at least one matching
record, the terminal handler is invoked exactly once with (null, first
matching record) and the cursor is closed exactly once, also on the path
where the handler itself throws (the finally clause still closes it and
the exception escapes unswallowed). -/
theorem c3_findOne_first_match (r : JSVal) (rest : List JSVal) (count : Nat)
    (log : JSVal) (cbThrows : Bool) :
    findOneCb (QryOutcome.success (r :: rest) count log) cbThrows
      = ([Event.cbCall [JSVal.vnull, r], Event.cursorClose], cbThrows)
    ∧ closeCount (findOneCb (QryOutcome.success (r :: rest) count log) cbThrows).1 = 1
    ∧ cbCallCount (findOneCb (QryOutcome.success (r :: rest) count log) cbThrows).1 = 1 := by
  refine ⟨rfl, ?_, ?_⟩ <;> simp [findOneCb, closeCount, cbCallCount, List.countP, List.countP.go, isClose, isCbCall]

/-- C4: when the findOne query succeeds with zero matching records
(cursor advancement fails), the terminal handler is invoked with
(null, null) and no cursor close is performed on that path. -/
theorem c4_findOne_no_match (count : Nat) (log : JSVal) (cbThrows : Bool) :
    findOneCb (QryOutcome.success [] count log) cbThrows
      = ([Event.cbCall [JSVal.vnull, JSVal.vnull]], cbThrows)
    ∧ closeCount (findOneCb (QryOutcome.success [] count log) cbThrows).1 = 0 := by
  refine ⟨rfl, ?_⟩
  simp [findOneCb, closeCount, List.countP, List.countP.go, isClose]

/-- C5: the count wrapper closes the cursor exactly once on success,
before the handler is invoked with (null, count); on failure (where the
engine produces no cursor) the handler is invoked with the error alone,
and no cursor ever reaches the caller through the handler arguments. -/
theorem c5_count_cursor_discipline (records : List JSVal) (count : Nat)
    (err log log2 : JSVal) :
    countCb (QryOutcome.success records count log)
      = [Event.cursorClose, Event.cbCall [JSVal.vnull, JSVal.vnum count]]
    ∧ closeCount (countCb (QryOutcome.success records count log)) = 1
    ∧ countCb (QryOutcome.failure err log2) = [Event.cbCall [err]] := by
  refine ⟨rfl, ?_, rfl⟩
  simp [countCb, closeCount, List.countP, List.countP.go, isClose]

theorem getAssoc_setAssoc_self (fs : List (String × JSVal)) (key : String)
    (v : JSVal) : getAssoc (setAssoc fs key v) key = v := by
  induction fs with
  | nil => simp [setAssoc, getAssoc]
  | cons p rest ih =>
    obtain ⟨k, w⟩ := p
    by_cases h : k = key
    · simp [setAssoc, getAssoc, h]
    · simp [setAssoc, getAssoc, h, ih]

theorem getAssoc_setAssoc_ne (fs : List (String × JSVal)) (key k2 : String)
    (v : JSVal) (h : k2 ≠ key) :
    getAssoc (setAssoc fs key v) k2 = getAssoc fs k2 := by
  induction fs with
  | nil => simp [setAssoc, getAssoc, h.symm]
  | cons p rest ih =>
    obtain ⟨k, w⟩ := p
    by_cases hk : k = key
    · subst hk
      simp [setAssoc, getAssoc, h.symm]
    · simp [setAssoc, getAssoc, hk, ih]

theorem jsGetD_set_ne (l : List JSVal) (i j : Nat) (a : JSVal) (h : i ≠ j) :
    (l.set i a).getD j JSVal.vundef = l.getD j JSVal.vundef := by
  induction l generalizing i j with
  | nil => rfl
  | cons hd tl ih =>
    cases i with
    | zero =>
      cases j with
      | zero => exact absurd rfl h
      | succ j => simp [List.set]
    | succ i =>
      cases j with
      | zero => simp [List.set]
      | succ j =>
        simp only [List.set, List.getD_cons_succ]
        exact ih i j (fun e => h (by rw [e]))

theorem jsGetD_set_self (l : List JSVal) (i : Nat) (a : JSVal)
    (h : i < l.length) : (l.set i a).getD i JSVal.vundef = a := by
  induction l generalizing i with
  | nil => simp at h
  | cons hd tl ih =>
    cases i with
    | zero => simp [List.set]
    | succ i =>
      simp only [List.set, List.getD_cons_succ]
      exact ih i (by simpa using h)

/-- The value jsarr[i] holds after the loop body of save ran for index i
(lines 137-142): a document that is not null or undefined and whose _id
is not strictly equal to oids[i] gets oids[i] written into its _id
property; every other value is left alone. -/
def assignStep (oids : List JSVal) (i : Nat) (so : JSVal) : JSVal :=
  if jsNonNullish so
      && !strictEq (getProp so "_id") (oids.getD i JSVal.vundef) then
    setProp so "_id" (oids.getD i JSVal.vundef)
  else so

/-- One iteration of the save back-assignment loop, acting on the array
at index i. -/
def doIndex (oids arr : List JSVal) (i : Nat) : List JSVal :=
  if jsNonNullish (arr.getD i JSVal.vundef)
      && !strictEq (getProp (arr.getD i JSVal.vundef) "_id")
          (oids.getD i JSVal.vundef) then
    arr.set i (setProp (arr.getD i JSVal.vundef) "_id"
      (oids.getD i JSVal.vundef))
  else arr

theorem length_doIndex (oids arr : List JSVal) (i : Nat) :
    (doIndex oids arr i).length = arr.length := by
  unfold doIndex
  split
  · exact List.length_set arr i _
  · rfl

theorem doIndex_getD_ne (oids arr : List JSVal) (i j : Nat) (h : i ≠ j) :
    (doIndex oids arr i).getD j JSVal.vundef = arr.getD j JSVal.vundef := by
  unfold doIndex
  split
  · exact jsGetD_set_ne _ _ _ _ h
  · rfl

theorem doIndex_getD_self (oids arr : List JSVal) (i : Nat)
    (h : i < arr.length) :
    (doIndex oids arr i).getD i JSVal.vundef
      = assignStep oids i (arr.getD i JSVal.vundef) := by
  unfold doIndex assignStep
  split
  · exact jsGetD_set_self _ _ _ h
  · rfl

/-- The save back-assignment loop, for (var i = jsarr.length - 1;
i >= 0; --i), run from index i down to index 0. -/
def saveLoopAux (oids : List JSVal) : List JSVal → Nat → List JSVal
  | arr, 0 => doIndex oids arr 0
  | arr, i + 1 => saveLoopAux oids (doIndex oids arr (i + 1)) i

theorem length_saveLoopAux (oids : List JSVal) :
    ∀ (i : Nat) (arr : List JSVal),
      (saveLoopAux oids arr i).length = arr.length := by
  intro i
  induction i with
  | zero => intro arr; exact length_doIndex oids arr 0
  | succ i ih =>
    intro arr
    simp only [saveLoopAux]
    rw [ih, length_doIndex]

theorem saveLoopAux_getD (oids : List JSVal) :
    ∀ (i : Nat) (arr : List JSVal) (j : Nat), j < arr.length →
      i < arr.length →
      (j ≤ i → (saveLoopAux oids arr i).getD j JSVal.vundef
          = assignStep oids j (arr.getD j JSVal.vundef))
      ∧ (i < j → (saveLoopAux oids arr i).getD j JSVal.vundef
          = arr.getD j JSVal.vundef) := by
  intro i
  induction i with
  | zero =>
    intro arr j hj hi
    constructor
    · intro hj0
      have : j = 0 := Nat.le_zero.mp hj0
      subst this
      exact doIndex_getD_self oids arr 0 hi
    · intro h0j
      exact doIndex_getD_ne oids arr 0 j (by omega)
  | succ i ih =>
    intro arr j hj hi
    have hlen := length_doIndex oids arr (i + 1)
    constructor
    · intro hji
      rcases Nat.lt_or_ge j (i + 1) with hlt | hge
      · have h1 := (ih (doIndex oids arr (i + 1)) j (by omega) (by omega)).1
          (by omega)
        rw [doIndex_getD_ne oids arr (i + 1) j (by omega)] at h1
        simpa only [saveLoopAux] using h1
      · have hj1 : j = i + 1 := by omega
        subst hj1
        have h2 := (ih (doIndex oids arr (i + 1)) (i + 1) (by omega)
          (by omega)).2 (by omega)
        rw [doIndex_getD_self oids arr (i + 1) (by omega)] at h2
        simpa only [saveLoopAux] using h2
    · intro hij
      have h3 := (ih (doIndex oids arr (i + 1)) j (by omega) (by omega)).2
        (by omega)
      rw [doIndex_getD_ne oids arr (i + 1) j (by omega)] at h3
      simpa only [saveLoopAux] using h3

/-- The whole back-assignment loop of save: an empty batch is untouched
(the loop starts at -1), otherwise indices length-1 down to 0 are
processed. -/
def saveAssign (jsarr oids : List JSVal) : List JSVal :=
  if jsarr.length = 0 then jsarr
  else saveLoopAux oids jsarr (jsarr.length - 1)

theorem length_saveAssign (jsarr oids : List JSVal) :
    (saveAssign jsarr oids).length = jsarr.length := by
  unfold saveAssign
  split
  · rfl
  · exact length_saveLoopAux oids _ jsarr

theorem saveAssign_getD (jsarr oids : List JSVal) (i : Nat)
    (hi : i < jsarr.length) :
    (saveAssign jsarr oids).getD i JSVal.vundef
      = assignStep oids i (jsarr.getD i JSVal.vundef) := by
  unfold saveAssign
  rw [if_neg (by omega)]
  exact (saveLoopAux_getD oids (jsarr.length - 1) jsarr i hi (by omega)).1
    (by omega)

/-- Engine-callback wrapper of save (lines 129-146): on a truthy error
the handler (when present) gets the error and the batch is untouched; on
success the back-assignment loop runs and the handler (when present)
gets (err, oids) with err the falsy error value. The first component is
the caller-visible content of the submitted array afterwards. -/
def saveCb (jsarr oids : List JSVal) (cbPresent : Bool) (err : JSVal) :
    List JSVal × List Event :=
  if truthy err then
    (jsarr, if cbPresent then [Event.cbCall [err]] else [])
  else
    (saveAssign jsarr oids,
     if cbPresent then [Event.cbCall [err, varr oids]] else [])

/-- C6: after a successful batch save, a submitted document (an object)
whose _id differs from the engine-returned identifier at its index gets
that identifier written into its _id property, with every other property
untouched, while a document whose _id already equals the returned
identifier is left entirely unchanged; positions and batch length are
preserved, and the success path of the save callback performs exactly
this transformation on the caller-supplied array. -/
theorem c6_save_id_back_assignment (jsarr oids : List JSVal) (i : Nat)
    (fields : List (String × JSVal)) (hi : i < jsarr.length)
    (hso : jsarr.getD i JSVal.vundef = JSVal.vobj fields) :
    (saveCb jsarr oids true JSVal.vnull).1 = saveAssign jsarr oids
    ∧ (saveAssign jsarr oids).length = jsarr.length
    ∧ (strictEq (getProp (JSVal.vobj fields) "_id")
          (oids.getD i JSVal.vundef) = false →
        getProp ((saveAssign jsarr oids).getD i JSVal.vundef) "_id"
            = oids.getD i JSVal.vundef
        ∧ ∀ k : String, k ≠ "_id" →
            getProp ((saveAssign jsarr oids).getD i JSVal.vundef) k
              = getProp (JSVal.vobj fields) k)
    ∧ (strictEq (getProp (JSVal.vobj fields) "_id")
          (oids.getD i JSVal.vundef) = true →
        (saveAssign jsarr oids).getD i JSVal.vundef = JSVal.vobj fields) := by
  refine ⟨rfl, length_saveAssign jsarr oids, ?_, ?_⟩
  · intro hne
    rw [saveAssign_getD jsarr oids i hi, hso]
    unfold assignStep
    rw [hne, if_pos (by rfl)]
    refine ⟨?_, ?_⟩
    · exact getAssoc_setAssoc_self fields "_id" (oids.getD i JSVal.vundef)
    · exact fun k hk => getAssoc_setAssoc_ne fields "_id" k _ hk
  · intro heq
    rw [saveAssign_getD jsarr oids i hi, hso]
    unfold assignStep
    rw [heq, if_neg (by simp)]

/-- Closed instance of C6: a one-document batch whose document had no
prior identifier gets the engine identifier assigned, and its other
property keeps its value; all hypotheses discharged at the concrete
input. -/
theorem c6_save_id_back_assignment_witness :
    getProp ((saveAssign [JSVal.vobj [("a", JSVal.vnum 1)]]
        [JSVal.vstr "x"]).getD 0 JSVal.vundef) "_id" = JSVal.vstr "x"
    ∧ getProp ((saveAssign [JSVal.vobj [("a", JSVal.vnum 1)]]
        [JSVal.vstr "x"]).getD 0 JSVal.vundef) "a"
      = getProp (JSVal.vobj [("a", JSVal.vnum 1)]) "a" := by
  have h := c6_save_id_back_assignment [JSVal.vobj [("a", JSVal.vnum 1)]]
    [JSVal.vstr "x"] 0 [("a", JSVal.vnum 1)] (by decide) rfl
  have h2 := h.2.2.1 (by decide)
  exact ⟨h2.1, h2.2 "a" (by decide)⟩

theorem getLast?_append_single {α : Type} (l : List α) (a : α) :
    (l ++ [a]).getLast? = some a := by
  induction l with
  | nil => rfl
  | cons hd tl ih =>
    cases tl with
    | nil => rfl
    | cons hd2 tl2 => simpa [List.getLast?_cons_cons] using ih

/-- C2 fails on the code: update replaces a missing callable handler by
null (line 404) but its engine callback then calls cb unconditionally on
both branches (lines 420 and 423), so when the engine reports a failure
the wrapper raises a TypeError instead of silently discarding the error.
The theorem evaluates the code at the failing input update("c", qobj)
with no handler, followed by an engine failure. -/
theorem c2_update_missing_handler_failure_crashes :
    ∃ d : QueryDispatch,
      updateBody 2 (JSVal.vstr "c") (JSVal.vobj []) JSVal.vundef JSVal.vundef
          JSVal.vundef = Except.ok d
      ∧ isFunction d.cb = false
      ∧ updateCb (isFunction d.cb)
          (QryOutcome.failure (JSVal.vstr "engine failure") JSVal.vnull)
        = Except.error "TypeError: cb is not a function" :=
  ⟨⟨JSVal.vstr "c", [JSVal.vobj [], JSVal.vundef, JSVal.vobj []],
    JBQRYCOUNT, JSVal.vnull⟩, rfl, rfl, rfl⟩

/-- C7: every wrapper this layer installs invokes the terminal handler
exactly once per engine callback, on success as on failure (findOne even
when the handler throws, count, update with a callable handler, save with
a handler present), and find passes the handler to the engine verbatim,
so the engine contract of one callback per request yields one handler
invocation there as well. -/
theorem c7_handler_invoked_exactly_once :
    (∀ (out : QryOutcome) (cbThrows : Bool),
      cbCallCount (findOneCb out cbThrows).1 = 1)
    ∧ (∀ out : QryOutcome, cbCallCount (countCb out) = 1)
    ∧ (∀ out : QryOutcome, ∃ es, updateCb true out = Except.ok es
        ∧ cbCallCount es = 1)
    ∧ (∀ (jsarr oids : List JSVal) (err : JSVal),
        cbCallCount (saveCb jsarr oids true err).2 = 1)
    ∧ (∀ (cname qobj orarr hints cb : JSVal) (d : QueryDispatch),
        findBody 5 cname qobj orarr hints cb = Except.ok d → d.cb = cb) := by
  refine ⟨?_, ?_, ?_, ?_, ?_⟩
  · intro out cbThrows
    cases out with
    | failure err log => rfl
    | success records count log => cases records <;> rfl
  · intro out
    cases out <;> rfl
  · intro out
    cases out with
    | failure err log => exact ⟨_, rfl, rfl⟩
    | success records count log => exact ⟨_, rfl, rfl⟩
  · intro jsarr oids err
    unfold saveCb
    split <;> rfl
  · intro cname qobj orarr hints cb d h
    simp only [findBody, normArgs] at h
    split at h
    · exact Except.noConfusion h
    · split at h
      · exact Except.noConfusion h
      · injection h with h2
        rw [← h2]

/-- Closed instance of C7: the hypothesis of the find pass-through part
discharged at a concrete dispatch. -/
theorem c7_handler_invoked_exactly_once_witness :
    QueryDispatch.cb ⟨JSVal.vstr "c", [JSVal.vobj [], JSVal.vobj []], 0,
        JSVal.vfun 7⟩ = JSVal.vfun 7 :=
  c7_handler_invoked_exactly_once.2.2.2.2 (JSVal.vstr "c") (JSVal.vobj [])
    (JSVal.varr []) (JSVal.vobj []) (JSVal.vfun 7)
    ⟨JSVal.vstr "c", [JSVal.vobj [], JSVal.vobj []], 0, JSVal.vfun 7⟩ rfl

/-- C8: when the resolved terminal handler is not callable, find, findOne
and count throw synchronously, and when the collection name is not a
string, find, findOne, update and count throw synchronously; in the
model a thrown Error is the error result, produced instead of (hence
before) any engine dispatch. -/
theorem c8_invalid_argument_synchronous :
    (∀ (arity : Nat) (cname qobj orarr hints cb : JSVal),
        isFunction (normArgs arity orarr hints cb).cb = false →
        (∃ msg, findBody arity cname qobj orarr hints cb = Except.error msg)
        ∧ (∃ msg, findOneBody arity cname qobj orarr hints cb
            = Except.error msg)
        ∧ (∃ msg, countBody arity cname qobj orarr hints cb
            = Except.error msg))
    ∧ (∀ (arity : Nat) (cname qobj orarr hints cb : JSVal),
        isString cname = false →
        (∃ msg, findBody arity cname qobj orarr hints cb = Except.error msg)
        ∧ (∃ msg, findOneBody arity cname qobj orarr hints cb
            = Except.error msg)
        ∧ (∃ msg, updateBody arity cname qobj orarr hints cb
            = Except.error msg)
        ∧ (∃ msg, countBody arity cname qobj orarr hints cb
            = Except.error msg)) := by
  constructor
  · intro arity cname qobj orarr hints cb hcb
    refine ⟨?_, ?_, ?_⟩ <;>
      simp [findBody, findOneBody, countBody, hcb]
  · intro arity cname qobj orarr hints cb hcn
    rcases Bool.eq_false_or_eq_true
        (isFunction (normArgs arity orarr hints cb).cb) with hcb | hcb <;>
      refine ⟨?_, ?_, ?_, ?_⟩ <;>
      simp [findBody, findOneBody, updateBody, countBody, hcb, hcn]

/-- Closed instance of C8: find called without a callback throws, and
update called with a non-string collection name throws, at concrete
inputs discharging each hypothesis. -/
theorem c8_invalid_argument_synchronous_witness :
    (∃ msg, findBody 3 (JSVal.vstr "c") (JSVal.vobj []) JSVal.vundef
        JSVal.vundef JSVal.vundef = Except.error msg)
    ∧ (∃ msg, updateBody 3 (JSVal.vnum 5) (JSVal.vobj []) (JSVal.vfun 0)
        JSVal.vundef JSVal.vundef = Except.error msg) :=
  ⟨(c8_invalid_argument_synchronous.1 3 (JSVal.vstr "c") (JSVal.vobj [])
      JSVal.vundef JSVal.vundef JSVal.vundef rfl).1,
   (c8_invalid_argument_synchronous.2 3 (JSVal.vnum 5) (JSVal.vobj [])
      (JSVal.vfun 0) JSVal.vundef JSVal.vundef rfl).2.2.1⟩

/-- C9: every dispatched update request carries the JBQRYCOUNT mode flag
whatever the hints were, and the update wrapper propagates the diagnostic
log to the handler on both paths, as (null, count, log) on success and as
(error, null, log) on failure. -/
theorem c9_update_count_mode_and_log :
    (∀ (arity : Nat) (cname qobj orarr hints cb : JSVal) (d : QueryDispatch),
        updateBody arity cname qobj orarr hints cb = Except.ok d →
        d.mode = JBQRYCOUNT)
    ∧ (∀ err log : JSVal, updateCb true (QryOutcome.failure err log)
        = Except.ok [Event.cbCall [err, JSVal.vnull, log]])
    ∧ (∀ (records : List JSVal) (count : Nat) (log : JSVal),
        updateCb true (QryOutcome.success records count log)
        = Except.ok [Event.cbCall [JSVal.vnull, JSVal.vnum count, log]]) := by
  refine ⟨?_, fun err log => rfl, fun records count log => rfl⟩
  intro arity cname qobj orarr hints cb d h
  simp only [updateBody] at h
  split at h
  · exact Except.noConfusion h
  · injection h with h2
    rw [← h2]

/-- Closed instance of C9: the mode part applied at a concrete update
call, its hypothesis discharged there. -/
theorem c9_update_count_mode_and_log_witness :
    QueryDispatch.mode ⟨JSVal.vstr "c", [JSVal.vobj [], JSVal.vobj []],
        JBQRYCOUNT, JSVal.vfun 0⟩ = JBQRYCOUNT :=
  c9_update_count_mode_and_log.1 3 (JSVal.vstr "c") (JSVal.vobj [])
    (JSVal.vfun 0) JSVal.vundef JSVal.vundef
    ⟨JSVal.vstr "c", [JSVal.vobj [], JSVal.vobj []], JBQRYCOUNT,
      JSVal.vfun 0⟩ rfl

/-- C10: a findOne call that is handed a caller-owned hints object writes
1 into its $max key before dispatch (overwriting any caller-supplied
value), leaves every other key untouched, and the dispatched request
array carries exactly that mutated object as its final element, so the
mutation is observable to the caller after the call returns. -/
theorem c10_findOne_mutates_caller_hints (cname qobj orarr cb : JSVal)
    (fields : List (String × JSVal)) (hcb : isFunction cb = true)
    (hcn : isString cname = true) :
    getProp (findOneCallerHintsAfter 5 cname orarr (JSVal.vobj fields) cb)
        "$max" = JSVal.vnum 1
    ∧ (∀ k : String, k ≠ "$max" →
        getProp (findOneCallerHintsAfter 5 cname orarr (JSVal.vobj fields) cb)
            k = getProp (JSVal.vobj fields) k)
    ∧ (∀ d : QueryDispatch,
        findOneBody 5 cname qobj orarr (JSVal.vobj fields) cb
            = Except.ok d →
        d.args.getLast? = some (findOneCallerHintsAfter 5 cname orarr
          (JSVal.vobj fields) cb)) := by
  have hafter : findOneCallerHintsAfter 5 cname orarr (JSVal.vobj fields) cb
      = JSVal.vobj (setAssoc fields "$max" (JSVal.vnum 1)) := by
    simp [findOneCallerHintsAfter, normArgs, hcb, hcn, truthy,
      typeofIsObject, setProp]
  refine ⟨?_, ?_, ?_⟩
  · rw [hafter]
    exact getAssoc_setAssoc_self fields "$max" (JSVal.vnum 1)
  · intro k hk
    rw [hafter]
    exact getAssoc_setAssoc_ne fields "$max" k _ hk
  · intro d h
    rw [hafter]
    simp only [findOneBody, normArgs, hcb, hcn, Bool.not_true,
      Bool.false_eq_true, if_false] at h
    injection h with h2
    rw [← h2]
    show (queryArray (coerceQobj qobj) orarr
      (setProp (coerceHints (JSVal.vobj fields)) "$max"
        (JSVal.vnum 1))).getLast? = _
    have hch : coerceHints (JSVal.vobj fields) = JSVal.vobj fields := by
      simp [coerceHints, truthy, typeofIsObject]
    rw [hch]
    show (concatArg (concatArg [coerceQobj qobj] orarr)
      (JSVal.vobj (setAssoc fields "$max" (JSVal.vnum 1)))).getLast? = _
    rw [show concatArg (concatArg [coerceQobj qobj] orarr)
        (JSVal.vobj (setAssoc fields "$max" (JSVal.vnum 1)))
      = concatArg [coerceQobj qobj] orarr
        ++ [JSVal.vobj (setAssoc fields "$max" (JSVal.vnum 1))] from rfl]
    exact getLast?_append_single _ _

/-- Closed instance of C10: a caller-supplied $max of 10 is overwritten
with 1, all hypotheses discharged at the concrete input. -/
theorem c10_findOne_mutates_caller_hints_witness :
    getProp (findOneCallerHintsAfter 5 (JSVal.vstr "c") (JSVal.varr [])
        (JSVal.vobj [("$max", JSVal.vnum 10)]) (JSVal.vfun 0)) "$max"
      = JSVal.vnum 1 :=
  (c10_findOne_mutates_caller_hints (JSVal.vstr "c") (JSVal.vobj [])
    (JSVal.varr []) (JSVal.vfun 0) [("$max", JSVal.vnum 10)] rfl rfl).1

end EJDB
